import Mathlib

/-!
Shallow embedding of `x/staking/simulation/operations.go` (cosmos-sdk staking
simulation operation generators) together with the external collaborators the
five generators depend on.  The five generator functions are translated
directly from the source file; collaborators that live elsewhere in the
repository (sdk.Dec fixed-point arithmetic, simulation randomness utilities,
keeper queries, the transaction pipeline) are modelled from the spec, as
noted on each definition.  Randomness is modelled as an oracle: a structure
of arbitrary natural-number seeds, one per draw site, reduced modulo the
relevant bound exactly where the corresponding library call bounds its draw,
so that the support of every random draw matches the support described by
the spec.  Machine/big integers are modelled as ℤ (cosmos sdk.Int is an
arbitrary-precision big.Int, so no wrap-around is involved).
-/

namespace StakingSim

/-- Chain addresses (account addresses and validator operator addresses share
the same underlying bytes in the source; casts between them are identity). -/
abbrev Addr := ℕ

abbrev Denom := String

/-- A single coin: denomination plus (big-integer) amount. -/
structure Coin where
  denom : Denom
  amount : ℤ
deriving DecidableEq, Repr

abbrev Coins := List Coin

/-- Modelled from the spec: read an account's balance in a given
denomination (`Coins.AmountOf`): total amount carried for that denom. -/
def amountOf (cs : Coins) (d : Denom) : ℤ :=
  (cs.filter (fun c => c.denom == d)).foldl (fun s c => s + c.amount) 0

/-- Modelled from the spec: coin-set subtraction (`Coins.SafeSub`), pointwise
per denomination, dropping zero entries; second component reports whether any
resulting amount is negative ("yields a negative component"). -/
def safeSub (a b : Coins) : Coins × Bool :=
  let denoms := ((a ++ b).map Coin.denom).eraseDups
  let res := (denoms.map (fun d => Coin.mk d (amountOf a d - amountOf b d))).filter
    (fun c => c.amount != 0)
  (res, res.any (fun c => c.amount < 0))

/-! ### Fixed-point decimals (sdk.Dec)

Modelled from the spec: the staking types' decimal arithmetic used by the
exchange-rate conversions.  A decimal is an integer number of 10^-18 units
(18 decimal places of precision); quotients round the 18th place half away
from zero, while integer division and `TruncateInt` truncate toward zero —
this finite precision is what the spec's "round-trip truncates to zero"
dust guard is about. -/

/-- One unit (1.0) in 10^-18 units. -/
def PREC : ℤ := 10 ^ 18

/-- Modelled from the spec: drop 18 decimal places, rounding the dropped part
half away from zero (`chopPrecisionAndRound`). -/
def chopRound (x : ℤ) : ℤ :=
  let q : ℤ := ((x.natAbs / 10 ^ 18 : ℕ) : ℤ)
  let r : ℤ := ((x.natAbs % 10 ^ 18 : ℕ) : ℤ)
  let q := if r < 5 * 10 ^ 17 then q else q + 1
  if x < 0 then -q else q

/-- Modelled from the spec: decimal multiplied by an integer (`Dec.MulInt`),
exact. -/
def decMulInt (a : ℤ) (i : ℤ) : ℤ := a * i

/-- Modelled from the spec: decimal quotient (`Dec.Quo`), rounded at the 18th
decimal place.  Division by zero is unreachable in the modelled operations
(guarded or behind positivity checks) and yields 0 here. -/
def decQuo (a b : ℤ) : ℤ :=
  if b = 0 then 0 else chopRound (Int.tdiv (a * PREC * PREC) b)

/-- Modelled from the spec: decimal divided by an integer, truncated toward
zero (`Dec.QuoInt`).  Division by zero yields 0 (unreachable: guarded). -/
def decQuoIntTrunc (a : ℤ) (i : ℤ) : ℤ :=
  if i = 0 then 0 else Int.tdiv a i

/-- Modelled from the spec: truncate a decimal toward zero to an integer
(`Dec.TruncateInt`). -/
def truncateInt (a : ℤ) : ℤ := Int.tdiv a PREC

/-- Modelled from the spec: `sdk.NewDecWithPrec i p` = i · 10^-p as a
decimal (used with p = 2 for two-decimal percentages). -/
def newDecWithPrec (i : ℤ) (p : ℕ) : ℤ := i * 10 ^ (18 - p)

/-! ### Staking data model (read-only snapshots) -/

/-- A validator's commission state: current rate, maximum rate, maximum
change rate (all decimals) and the time of the last rate update
(nanoseconds). -/
structure Commission where
  rate : ℤ
  maxRate : ℤ
  maxChangeRate : ℤ
  updateTime : ℤ
deriving DecidableEq, Repr

/-- Validator snapshot: operator address, bonded token total, issued
delegator shares, commission. -/
structure Validator where
  operatorAddress : Addr
  tokens : ℤ
  delegatorShares : ℤ
  commission : Commission
deriving DecidableEq, Repr

/-- Zero-valued validator (Go's `types.Validator{}`), used only as the
default of a guarded list lookup. -/
def validatorZero : Validator := ⟨0, 0, 0, ⟨0, 0, 0, 0⟩⟩

/-- Delegation snapshot: delegator address, validator address, shares held. -/
structure Delegation where
  delegatorAddress : Addr
  validatorAddress : Addr
  shares : ℤ
deriving DecidableEq, Repr

/-- Zero-valued delegation, default of a guarded list lookup. -/
def delegationZero : Delegation := ⟨0, 0, 0⟩

/-- Modelled from the spec: a validator's bonded-tokens-per-share conversion
(`Validator.TokensFromShares`): shares · tokens / delegatorShares as a
decimal quotient. -/
def tokensFromShares (v : Validator) (shares : ℤ) : ℤ :=
  decQuo (decMulInt shares v.tokens) v.delegatorShares

deriving instance DecidableEq for Except

/-- Errors surfaced by the generators (Go `error` values). -/
inductive SimError where
  | randErr (s : String)
  | noCoinsForFees
  | insufficientShares
  | accountNotFound (a : Addr)
  | deliveryFailed (log : String)
deriving DecidableEq, Repr

/-- Modelled from the spec: tokens-to-shares conversion
(`Validator.SharesFromTokens`): errors when the validator has no bonded
tokens, otherwise delegatorShares · amt / tokens with truncation. -/
def sharesFromTokens (v : Validator) (amt : ℤ) : Except SimError ℤ :=
  if v.tokens = 0 then .error .insufficientShares
  else .ok (decQuoIntTrunc (decMulInt v.delegatorShares amt) v.tokens)

/-- Modelled from the spec: a validator's exchange rate is invalid when it
has zero bonded tokens but positive issued shares
(`Validator.InvalidExRate`). -/
def invalidExRate (v : Validator) : Bool :=
  v.tokens == 0 && decide (0 < v.delegatorShares)

/-- Reasons a new commission rate can fail validation. -/
inductive CommissionErr where
  | updateTime
  | negativeRate
  | rateAboveMax
  | changeAboveMax
deriving DecidableEq, Repr

/-- Modelled from the spec: the commission-change validity rule
(`Commission.ValidateNewRate`): at most one change per 24-hour window
(times in nanoseconds), new rate nonnegative, at most the max rate, and
changed by at most the max change rate.  `none` means valid. -/
def validateNewRate (c : Commission) (newRate : ℤ) (blockTime : ℤ) :
    Option CommissionErr :=
  if blockTime - c.updateTime < 24 * 3600 * 1000000000 then some .updateTime
  else if newRate < 0 then some .negativeRate
  else if c.maxRate < newRate then some .rateAboveMax
  else if c.maxChangeRate < ((c.rate - newRate).natAbs : ℤ) then some .changeAboveMax
  else none

/-! ### Simulation accounts, ledger accounts, messages, results -/

/-- Simulation-local account record: address, public key, private key.  The
private key is an interface value in Go and can be nil; the zero-valued
record has no private key. -/
structure Account where
  address : Addr
  pubKey : ℕ
  privKey : Option ℕ
deriving DecidableEq, Repr

/-- Zero-valued simulation account (Go's `simulation.Account{}`). -/
def accountZero : Account := ⟨0, 0, none⟩

/-- Ledger (auth) account view: full coin balance, spendable coins as of the
current block time, account number and sequence. -/
structure AuthAccount where
  coins : Coins
  spendable : Coins
  accountNumber : ℕ
  sequence : ℕ
deriving DecidableEq, Repr

/-- Commission rates carried by a create-validator message
(`types.NewCommissionRates rate maxRate maxChangeRate`). -/
structure CommissionRates where
  rate : ℤ
  maxRate : ℤ
  maxChangeRate : ℤ
deriving DecidableEq, Repr

/-- The staking messages the five generators build. -/
inductive StakingMsg where
  | createValidator (valAddr : Addr) (pubKey : ℕ) (selfDelegation : Coin)
      (descr : List String) (commission : CommissionRates) (minSelfDelegation : ℤ)
  | editValidator (valAddr : Addr) (descr : List String) (newRate : ℤ)
  | delegate (delegatorAddr : Addr) (validatorAddr : Addr) (amount : Coin)
  | undelegate (delegatorAddr : Addr) (validatorAddr : Addr) (amount : Coin)
  | beginRedelegate (delegatorAddr : Addr) (srcAddr : Addr) (dstAddr : Addr)
      (amount : Coin)
deriving DecidableEq, Repr

/-- The operation message part of a generator's return value: either the
module's no-op sentinel (`simulation.NoOpMsg`) or a real message marked OK
(`simulation.NewOperationMsg msg true ""`). -/
inductive OperationMsg where
  | noOp
  | opMsg (m : StakingMsg)
deriving DecidableEq, Repr

/-- A generator's outcome: the returned (OperationMsg, error) pair — the
future-operations component is always nil in the source and is omitted — or
a Go runtime panic (which the source can hit via `rand.Intn(0)` on an empty
delegation list). -/
inductive SimResult where
  | ret (msg : OperationMsg) (err : Option SimError)
  | panicked (site : String)
deriving DecidableEq, Repr

/-- Result of delivering a transaction (`res.IsOK()`, `res.Log`). -/
structure DeliverResult where
  isOK : Bool
  log : String

/-- A generated transaction (`helpers.GenTx`): single message, fees, chain
id, account number, sequence, signing private key. -/
structure Tx where
  msg : StakingMsg
  fees : Coins
  chainID : String
  accountNumber : ℕ
  sequence : ℕ
  signer : Option ℕ
deriving DecidableEq, Repr

/-- The environment a generator call reads: the chain-state snapshot
(validators, delegations, params, ledger accounts, entry-cap predicates),
the block time, and the external transaction pipeline (`app.Deliver`),
plus the chain id argument. -/
structure Env where
  validators : List Validator
  delegationsOf : Addr → List Delegation
  bondDenom : Denom
  getAccount : Addr → AuthAccount
  hasMaxUnbondingDelegationEntries : Addr → Addr → Bool
  hasReceivingRedelegation : Addr → Addr → Bool
  hasMaxRedelegationEntries : Addr → Addr → Addr → Bool
  blockTime : ℤ
  deliver : Tx → DeliverResult
  chainID : String

/-! ### Randomness oracle and utilities -/

/-- The randomness source, modelled as one arbitrary natural seed per draw
site of a generator call; each utility reduces its seed modulo its bound, so
every value of the documented support is realized by some seed. -/
structure RandInput where
  accIdx : ℕ
  valIdx : ℕ
  valIdx2 : ℕ
  delIdx : ℕ
  amtSeed : ℕ
  feeDenomIdx : ℕ
  feeSeed : ℕ
  decSeed1 : ℕ
  decSeed2 : ℕ
  intBetweenSeed : ℕ

/-- Modelled from the spec: random positive integer bounded above
(`simulation.RandPositiveInt`): fails on a malformed bound (max < 1),
otherwise yields a value in [1, max]. -/
def randPositiveInt (seed : ℕ) (max : ℤ) : Except SimError ℤ :=
  if max < 1 then .error (.randErr "max too small")
  else .ok (1 + ((seed % max.toNat : ℕ) : ℤ))

/-- Modelled from the spec: random decimal bounded above
(`simulation.RandomDecAmount`): a value in [0, max] (0 when max is not
positive). -/
def randomDecAmount (seed : ℕ) (max : ℤ) : ℤ :=
  if max ≤ 0 then 0 else ((seed % (max.toNat + 1) : ℕ) : ℤ)

/-- Modelled from the spec: random integer in a range
(`simulation.RandIntBetween r min max`), here over the interval the spec
describes as closed: a value in [min, max]. -/
def randIntBetween (seed : ℕ) (mn mx : ℕ) : ℕ :=
  mn + seed % (mx - mn + 1)

/-- Modelled from the spec: random fixed-length string
(`simulation.RandStringOfLength`); its contents never influence a
generator's control flow, only the description carried by a message. -/
def randStringOfLength (n : ℕ) : String :=
  String.mk (List.replicate n 'a')

/-- The five-string random description built by the create/edit generators
(`types.NewDescription` of five `RandStringOfLength r 10` draws). -/
def randDescription : List String :=
  [randStringOfLength 10, randStringOfLength 10, randStringOfLength 10,
   randStringOfLength 10, randStringOfLength 10]

/-- Modelled from the spec: sample a random existing validator
(`keeper.RandomValidator`): none when no validator exists, otherwise a
uniformly indexed element of the validator list. -/
def randomValidator (idx : ℕ) (env : Env) : Option Validator :=
  let vals := env.validators
  if vals.isEmpty then none
  else some (vals.getD (idx % vals.length) validatorZero)

/-- Modelled from the spec: reverse-lookup a simulation keypair record by
chain address (`simulation.FindAccount`): first account in the list with the
given address. -/
def findAccount (accs : List Account) (addr : Addr) : Option Account :=
  accs.find? (fun a => a.address == addr)

/-- Modelled from the spec: random fee selection bounded by a coin set
(`simulation.RandomFees`): empty coins give empty fees; otherwise pick a
random denomination, fail if its amount is zero, and draw a random positive
amount bounded by it. -/
def randomFees (r : RandInput) (spendable : Coins) : Except SimError Coins :=
  if spendable.isEmpty then .ok []
  else
    let c := spendable.getD (r.feeDenomIdx % spendable.length) ⟨"", 0⟩
    if c.amount = 0 then .error .noCoinsForFees
    else
      match randPositiveInt r.feeSeed c.amount with
      | .error e => .error e
      | .ok amt => .ok [⟨c.denom, amt⟩]

/-- The commission parameters drawn by `SimulateMsgCreateValidator`
(source lines 65-70): max-rate = `NewDecWithPrec (RandIntBetween r 0 100) 2`,
rate and max-change-rate = `RandomDecAmount r maxCommission`. -/
def drawCommission (r : RandInput) : CommissionRates :=
  let maxCommission := newDecWithPrec ((randIntBetween r.intBetweenSeed 0 100 : ℕ) : ℤ) 2
  ⟨randomDecAmount r.decSeed1 maxCommission, maxCommission,
   randomDecAmount r.decSeed2 maxCommission⟩

/-- The shared tail of every generator: build the transaction
(`helpers.GenTx`), deliver it (`app.Deliver`), classify: delivery failure
returns the no-op sentinel with the log as an error, success returns the
message marked OK with a nil error. -/
def finishTx (env : Env) (msg : StakingMsg) (fees : Coins)
    (account : AuthAccount) (privKey : Option ℕ) : SimResult :=
  let tx : Tx := ⟨msg, fees, env.chainID, account.accountNumber, account.sequence, privKey⟩
  let res := env.deliver tx
  if res.isOK then .ret (.opMsg msg) none
  else .ret .noOp (some (.deliveryFailed res.log))

/-- The Begin-Redelegate dust check of source lines 354-362, as a predicate:
the drawn token amount, converted to shares via the validator's rate and
back to tokens, truncates to zero. -/
def roundTripTruncZero (v : Validator) (amt : ℤ) : Bool :=
  match sharesFromTokens v amt with
  | .error _ => false
  | .ok sh => truncateInt (tokensFromShares v sh) == 0

/-! ### The five operation generators (translated from
`x/staking/simulation/operations.go`) -/

/-- `SimulateMsgCreateValidator` (source lines 18-91). -/
def simulateMsgCreateValidator (env : Env) (accs : List Account) (r : RandInput) :
    SimResult :=
  -- simulation.RandomAcc indexes accs with r.Intn(len(accs)): panics when empty
  if accs.isEmpty then .panicked "Intn" else
  let simAccount := accs.getD (r.accIdx % accs.length) accountZero
  let address := simAccount.address
  -- ensure the validator doesn't exist already
  if (env.validators.find? (fun v => v.operatorAddress == address)).isSome then
    .ret .noOp none
  else
    let denom := env.bondDenom
    let amount := amountOf (env.getAccount simAccount.address).coins denom
    if ¬ 0 < amount then .ret .noOp none
    else
      match randPositiveInt r.amtSeed amount with
      | .error e => .ret .noOp (some e)
      | .ok amount =>
        let selfDelegation : Coin := ⟨denom, amount⟩
        let account := env.getAccount simAccount.address
        let coins := account.spendable
        let (coins, hasNeg) := safeSub coins [selfDelegation]
        let feesE : Except SimError Coins :=
          if hasNeg then .ok [] else randomFees r coins
        match feesE with
        | .error e => .ret .noOp (some e)
        | .ok fees =>
          let commission := drawCommission r
          let msg := StakingMsg.createValidator address simAccount.pubKey
            selfDelegation randDescription commission 1
          finishTx env msg fees account simAccount.privKey

/-- `SimulateMsgEditValidator` (source lines 95-155). -/
def simulateMsgEditValidator (env : Env) (accs : List Account) (r : RandInput) :
    SimResult :=
  if env.validators.length = 0 then .ret .noOp none else
  match randomValidator r.valIdx env with
  | none => .ret .noOp none
  | some val =>
    let address := val.operatorAddress
    let newCommissionRate := randomDecAmount r.decSeed1 val.commission.maxRate
    match validateNewRate val.commission newCommissionRate env.blockTime with
    | some _ => .ret .noOp none  -- skip as the commission is invalid
    | none =>
      match findAccount accs address with
      | none => .ret .noOp (some (.accountNotFound address))
      | some simAccount =>
        let account := env.getAccount simAccount.address
        match randomFees r account.spendable with
        | .error e => .ret .noOp (some e)
        | .ok fees =>
          let msg := StakingMsg.editValidator address randDescription newCommissionRate
          finishTx env msg fees account simAccount.privKey

/-- `SimulateMsgDelegate` (source lines 159-221). -/
def simulateMsgDelegate (env : Env) (accs : List Account) (r : RandInput) :
    SimResult :=
  let denom := env.bondDenom
  if env.validators.length = 0 then .ret .noOp none else
  if accs.isEmpty then .panicked "Intn" else
  let simAccount := accs.getD (r.accIdx % accs.length) accountZero
  match randomValidator r.valIdx env with
  | none => .ret .noOp none
  | some val =>
    if invalidExRate val then .ret .noOp none else
    let amount := amountOf (env.getAccount simAccount.address).coins denom
    if ¬ 0 < amount then .ret .noOp none
    else
      match randPositiveInt r.amtSeed amount with
      | .error e => .ret .noOp (some e)
      | .ok amount =>
        let bondAmt : Coin := ⟨denom, amount⟩
        let account := env.getAccount simAccount.address
        let coins := account.spendable
        let (coins, hasNeg) := safeSub coins [bondAmt]
        let feesE : Except SimError Coins :=
          if hasNeg then .ok [] else randomFees r coins
        match feesE with
        | .error e => .ret .noOp (some e)
        | .ok fees =>
          let msg := StakingMsg.delegate simAccount.address val.operatorAddress bondAmt
          finishTx env msg fees account simAccount.privKey

/-- `SimulateMsgUndelegate` (source lines 225-300). -/
def simulateMsgUndelegate (env : Env) (accs : List Account) (r : RandInput) :
    SimResult :=
  match randomValidator r.valIdx env with
  | none => .ret .noOp none
  | some validator =>
    let valAddr := validator.operatorAddress
    let delegations := env.delegationsOf validator.operatorAddress
    -- r.Intn(len(delegations)) panics when the list is empty
    if delegations.isEmpty then .panicked "Intn" else
    let delegation := delegations.getD (r.delIdx % delegations.length) delegationZero
    let delAddr := delegation.delegatorAddress
    if env.hasMaxUnbondingDelegationEntries delAddr valAddr then .ret .noOp none else
    let totalBond := truncateInt (tokensFromShares validator delegation.shares)
    if ¬ 0 < totalBond then .ret .noOp none
    else
      match randPositiveInt r.amtSeed totalBond with
      | .error e => .ret .noOp (some e)
      | .ok unbondAmt =>
        if unbondAmt = 0 then .ret .noOp none else
        let msg := StakingMsg.undelegate delAddr valAddr ⟨env.bondDenom, unbondAmt⟩
        -- first-match scan over accs; the zero-valued record has no private key
        let simAccount := (accs.find? (fun a => a.address == delAddr)).getD accountZero
        if simAccount.privKey = none then
          .ret .noOp (some (.accountNotFound delAddr))
        else
          let account := env.getAccount delAddr
          match randomFees r account.spendable with
          | .error e => .ret .noOp (some e)
          | .ok fees => finishTx env msg fees account simAccount.privKey

/-- `SimulateMsgBeginRedelegate` (source lines 304-405). -/
def simulateMsgBeginRedelegate (env : Env) (accs : List Account) (r : RandInput) :
    SimResult :=
  match randomValidator r.valIdx env with
  | none => .ret .noOp none
  | some srcVal =>
    let srcAddr := srcVal.operatorAddress
    let delegations := env.delegationsOf srcAddr
    -- r.Intn(len(delegations)) panics when the list is empty
    if delegations.isEmpty then .panicked "Intn" else
    let delegation := delegations.getD (r.delIdx % delegations.length) delegationZero
    let delAddr := delegation.delegatorAddress
    if env.hasReceivingRedelegation delAddr srcAddr then .ret .noOp none else
    match randomValidator r.valIdx2 env with
    | none => .ret .noOp none
    | some destVal =>
      let destAddr := destVal.operatorAddress
      if srcAddr == destAddr || invalidExRate destVal ||
          env.hasMaxRedelegationEntries delAddr srcAddr destAddr then
        .ret .noOp none
      else
        let totalBond := truncateInt (tokensFromShares srcVal delegation.shares)
        if ¬ 0 < totalBond then .ret .noOp none
        else
          match randPositiveInt r.amtSeed totalBond with
          | .error e => .ret .noOp (some e)
          | .ok redAmt =>
            if redAmt = 0 then .ret .noOp none else
            -- check if the shares truncate to zero
            match sharesFromTokens srcVal redAmt with
            | .error e => .ret .noOp (some e)
            | .ok shares =>
              if truncateInt (tokensFromShares srcVal shares) = 0 then
                .ret .noOp none
              else
                let simAccount :=
                  (accs.find? (fun a => a.address == delAddr)).getD accountZero
                if simAccount.privKey = none then
                  .ret .noOp (some (.accountNotFound delAddr))
                else
                  let account := env.getAccount delAddr
                  match randomFees r account.spendable with
                  | .error e => .ret .noOp (some e)
                  | .ok fees =>
                    let msg := StakingMsg.beginRedelegate delAddr srcAddr destAddr
                      ⟨env.bondDenom, redAmt⟩
                    finishTx env msg fees account simAccount.privKey

/-! ### Concrete states used as counterexamples, failing inputs and witnesses -/

/-- A validator with 10^20 bonded tokens over 1.0 issued shares: an extreme
but valid exchange rate under which a 1-token amount converts to 0 shares. -/
def vU : Validator := ⟨1, 10 ^ 20, 10 ^ 18, ⟨0, 0, 0, 0⟩⟩

/-- A simulation account at address 5 holding a private key. -/
def accA : Account := ⟨5, 50, some 77⟩

/-- Ledger account: 5 stake, all spendable. -/
def authA : AuthAccount := ⟨[⟨"stake", 5⟩], [⟨"stake", 5⟩], 0, 0⟩

/-- Randomness input with every seed zero. -/
def rZero : RandInput := ⟨0, 0, 0, 0, 0, 0, 0, 0, 0, 0⟩

/-- State: validator `vU` with a single 1.0-share delegation from address 5;
delivery always succeeds. -/
def envU : Env := ⟨[vU], fun _ => [⟨5, 1, 10 ^ 18⟩], "stake", fun _ => authA,
  fun _ _ => false, fun _ _ => false, fun _ _ _ => false, 0, fun _ => ⟨true, ""⟩, "chain"⟩

/-- State: one validator with an empty delegation list. -/
def envPanic : Env := ⟨[vU], fun _ => [], "stake", fun _ => authA,
  fun _ _ => false, fun _ _ => false, fun _ _ _ => false, 0, fun _ => ⟨true, ""⟩, "chain"⟩

/-- Source validator for a successful redelegation: 1:1 exchange rate. -/
def v1 : Validator := ⟨1, 1000000, 1000000 * 10 ^ 18, ⟨0, 0, 0, 0⟩⟩

/-- Destination validator, distinct from `v1`, valid exchange rate. -/
def v2 : Validator := ⟨2, 500, 500 * 10 ^ 18, ⟨0, 0, 0, 0⟩⟩

/-- State with two validators and a 500000-share delegation from address 5. -/
def envR : Env := ⟨[v1, v2], fun _ => [⟨5, 1, 500000 * 10 ^ 18⟩], "stake",
  fun _ => authA, fun _ _ => false, fun _ _ => false, fun _ _ _ => false, 0,
  fun _ => ⟨true, ""⟩, "chain"⟩

/-- Randomness picking validator 0 as source and validator 1 as destination. -/
def rRedel : RandInput := ⟨0, 0, 1, 0, 0, 0, 0, 0, 0, 0⟩

/-- State with no validators at all. -/
def envNoVal : Env := ⟨[], fun _ => [], "stake", fun _ => authA,
  fun _ _ => false, fun _ _ => false, fun _ _ _ => false, 0, fun _ => ⟨true, ""⟩, "chain"⟩

/-- Randomness whose amount seed draws 3 out of a balance of 5. -/
def rAmt2 : RandInput := ⟨0, 0, 0, 0, 2, 0, 0, 0, 0, 0⟩

/-- Validator whose commission was last updated 200000 seconds before block
time 0, so a new-rate validation passes the 24-hour rule. -/
def vOld : Validator := ⟨1, 10 ^ 20, 10 ^ 18, ⟨0, 0, 0, -(200000 * 10 ^ 9)⟩⟩

/-- State with `vOld` as the only validator. -/
def envOld : Env := ⟨[vOld], fun _ => [], "stake", fun _ => authA,
  fun _ _ => false, fun _ _ => false, fun _ _ _ => false, 0, fun _ => ⟨true, ""⟩, "chain"⟩

/-- State like `envU` but where the delegator already has the maximum number
of outstanding unbonding entries. -/
def envCap : Env := ⟨[vU], fun _ => [⟨5, 1, 10 ^ 18⟩], "stake", fun _ => authA,
  fun _ _ => true, fun _ _ => false, fun _ _ _ => false, 0, fun _ => ⟨true, ""⟩, "chain"⟩

/-- Ledger account with a balance but nothing spendable. -/
def authPoor : AuthAccount := ⟨[⟨"stake", 5⟩], [], 0, 0⟩

/-- State with no validators and an unspendable balance. -/
def envPoor : Env := ⟨[], fun _ => [], "stake", fun _ => authPoor,
  fun _ _ => false, fun _ _ => false, fun _ _ _ => false, 0, fun _ => ⟨true, ""⟩, "chain"⟩

/-- State with validator `v1` and an unspendable balance. -/
def envPoorV : Env := ⟨[v1], fun _ => [], "stake", fun _ => authPoor,
  fun _ _ => false, fun _ _ => false, fun _ _ _ => false, 0, fun _ => ⟨true, ""⟩, "chain"⟩

/-- Validator with zero bonded tokens but issued shares (zero bond value). -/
def vZeroTok : Validator := ⟨1, 0, 10 ^ 18, ⟨0, 0, 0, 0⟩⟩

/-- State whose only validator has a zero-token delegation pool. -/
def envZeroBond : Env := ⟨[vZeroTok], fun _ => [⟨5, 1, 10 ^ 18⟩], "stake",
  fun _ => authA, fun _ _ => false, fun _ _ => false, fun _ _ _ => false, 0,
  fun _ => ⟨true, ""⟩, "chain"⟩

/-- Simulation account owning validator address 1. -/
def accOp : Account := ⟨1, 51, some 88⟩

/-- Randomness whose commission seed draws the maximum 100 (per-cent) value. -/
def rComm : RandInput := ⟨0, 0, 0, 0, 0, 0, 0, 3, 7, 100⟩

/-! ### Helper lemmas -/

/-- A draw from `randPositiveInt` lies in [1, max]. -/
theorem randPositiveInt_ok {s : ℕ} {mx a : ℤ}
    (h : randPositiveInt s mx = .ok a) : 1 ≤ a ∧ a ≤ mx := by
  unfold randPositiveInt at h
  split at h
  · exact absurd h (by simp)
  · rename_i hlt
    have hmod : s % mx.toNat < mx.toNat := Nat.mod_lt _ (by omega)
    injection h with h1
    omega

/-- A draw from `randomDecAmount` lies in [0, max] when max is nonnegative. -/
theorem randomDecAmount_bounds (seed : ℕ) (mx : ℤ) (hm : 0 ≤ mx) :
    0 ≤ randomDecAmount seed mx ∧ randomDecAmount seed mx ≤ mx := by
  unfold randomDecAmount
  split
  · refine ⟨?_, ?_⟩ <;> omega
  · rename_i h
    have h2 : seed % (mx.toNat + 1) < mx.toNat + 1 := Nat.mod_lt _ (by omega)
    refine ⟨?_, ?_⟩ <;> omega

/-- `finishTx` only returns a nil-error operation message for the message it
was given. -/
theorem finishTx_success {env : Env} {msg : StakingMsg} {fees : Coins}
    {account : AuthAccount} {pk : Option ℕ} {m : StakingMsg}
    (h : finishTx env msg fees account pk = .ret (.opMsg m) none) : m = msg := by
  simp only [finishTx] at h
  split at h
  · injection h with h1 h2
    injection h1 with h1
    exact h1.symm
  · exact absurd h (by simp)

/-- `randomValidator` succeeds only on a nonempty validator list. -/
theorem randomValidator_some {idx : ℕ} {env : Env} {val : Validator}
    (h : randomValidator idx env = some val) : env.validators ≠ [] := by
  simp only [randomValidator] at h
  split at h
  · exact absurd h (by simp)
  · rename_i hne
    intro hnil
    simp [hnil] at hne

/-- A nonempty list is not `isEmpty`. -/
theorem isEmpty_false {α : Type} {l : List α} (h : l ≠ []) : l.isEmpty = false := by
  cases l with
  | nil => exact absurd rfl h
  | cons a t => rfl

/-! ### Claim theorems -/

/-- C1 (code bug evidence): in a state whose randomly chosen (source)
validator has zero delegations, `SimulateMsgUndelegate` and
`SimulateMsgBeginRedelegate` do not return NoOp as the spec requires: both
panic, because `r.Intn(len(delegations))` is called with length 0. -/
theorem c1_zero_delegations_panics :
    simulateMsgUndelegate envPanic [accA] rZero = .panicked "Intn" ∧
    simulateMsgBeginRedelegate envPanic [accA] rZero = .panicked "Intn" :=
  ⟨rfl, rfl⟩

/-- C2 (counterexample): a state in which `SimulateMsgUndelegate` returns a
Success whose drawn token amount (1) converts to shares and back to zero
tokens under the validator's exchange rate — the claimed NoOp outcome does
not happen, because the undelegate generator has no round-trip guard. -/
theorem c2_undelegate_roundtrip_counterexample :
    simulateMsgUndelegate envU [accA] rZero =
      .ret (.opMsg (.undelegate 5 1 ⟨"stake", 1⟩)) none ∧
    roundTripTruncZero vU 1 = true :=
  ⟨rfl, rfl⟩

/-- C2 (amended): only Begin-Redelegate applies the share round-trip dust
guard: a successful `SimulateMsgBeginRedelegate` outcome never carries an
amount whose round trip through the source validator's exchange rate
truncates to zero. -/
theorem c2_redelegate_roundtrip_guard (env : Env) (accs : List Account)
    (r : RandInput) (val : Validator) (d s t : Addr) (c : Coin)
    (hv : randomValidator r.valIdx env = some val)
    (h : simulateMsgBeginRedelegate env accs r =
      .ret (.opMsg (.beginRedelegate d s t c)) none) :
    roundTripTruncZero val c.amount = false := by
  simp only [simulateMsgBeginRedelegate, hv] at h
  split at h
  · exact absurd h (by simp)
  · split at h
    · exact absurd h (by simp)
    · split at h
      · exact absurd h (by simp)
      · rename_i destVal hdest
        split at h
        · exact absurd h (by simp)
        · split at h
          · exact absurd h (by simp)
          · split at h
            · exact absurd h (by simp)
            · rename_i redAmt hamt
              split at h
              · exact absurd h (by simp)
              · split at h
                · exact absurd h (by simp)
                · rename_i shares hsh
                  split at h
                  · exact absurd h (by simp)
                  · rename_i hrt
                    split at h
                    · exact absurd h (by simp)
                    · split at h
                      · exact absurd h (by simp)
                      · rename_i fees hfees
                        have hm := finishTx_success h
                        injection hm with h1 h2 h3 h4
                        subst h4
                        simp only [roundTripTruncZero, hsh]
                        simpa using hrt

/-- C2 (amended, witness): a concrete successful redelegation whose drawn
amount does not round-trip to zero. -/
theorem c2_redelegate_roundtrip_guard_witness :
    roundTripTruncZero v1 (Coin.mk "stake" 1).amount = false :=
  c2_redelegate_roundtrip_guard envR [accA] rRedel v1 5 1 2 ⟨"stake", 1⟩ rfl rfl

/-- C4: the commission parameters drawn by `SimulateMsgCreateValidator`:
the max-rate is a two-decimal value k·1% with k ≤ 100, the full 100% (the
decimal 1.00 = 10^18) is an attainable outcome, and the drawn rate and
max-change-rate always lie in [0, max-rate]. -/
theorem c4_create_validator_commission :
    (∀ r : RandInput,
      (∃ k : ℕ, k ≤ 100 ∧ (drawCommission r).maxRate = (k : ℤ) * 10 ^ 16) ∧
      0 ≤ (drawCommission r).rate ∧
      (drawCommission r).rate ≤ (drawCommission r).maxRate ∧
      0 ≤ (drawCommission r).maxChangeRate ∧
      (drawCommission r).maxChangeRate ≤ (drawCommission r).maxRate) ∧
    (∃ r : RandInput, (drawCommission r).maxRate = 10 ^ 18) := by
  constructor
  · intro r
    have hmax : (drawCommission r).maxRate = ((r.intBetweenSeed % 101 : ℕ) : ℤ) * 10 ^ 16 := by
      simp only [drawCommission, newDecWithPrec, randIntBetween, Nat.zero_add]
    have hnn : 0 ≤ (drawCommission r).maxRate := by rw [hmax]; positivity
    have hrate : (drawCommission r).rate =
        randomDecAmount r.decSeed1 (drawCommission r).maxRate := by
      simp only [drawCommission]
    have hchg : (drawCommission r).maxChangeRate =
        randomDecAmount r.decSeed2 (drawCommission r).maxRate := by
      simp only [drawCommission]
    refine ⟨⟨r.intBetweenSeed % 101, by omega, hmax⟩, ?_, ?_, ?_, ?_⟩
    · rw [hrate]; exact (randomDecAmount_bounds _ _ hnn).1
    · rw [hrate]; exact (randomDecAmount_bounds _ _ hnn).2
    · rw [hchg]; exact (randomDecAmount_bounds _ _ hnn).1
    · rw [hchg]; exact (randomDecAmount_bounds _ _ hnn).2
  · exact ⟨rComm, by decide⟩

/-- C5: in every state without validators, all four of Edit-Validator,
Delegate, Undelegate and Begin-Redelegate return NoOp with a nil error. -/
theorem c5_no_validator_noop (env : Env) (accs : List Account) (r : RandInput)
    (h : env.validators = []) :
    simulateMsgEditValidator env accs r = .ret .noOp none ∧
    simulateMsgDelegate env accs r = .ret .noOp none ∧
    simulateMsgUndelegate env accs r = .ret .noOp none ∧
    simulateMsgBeginRedelegate env accs r = .ret .noOp none := by
  have hrv : ∀ idx, randomValidator idx env = none := by
    intro idx; simp [randomValidator, h]
  refine ⟨?_, ?_, ?_, ?_⟩
  · simp [simulateMsgEditValidator, h]
  · simp [simulateMsgDelegate, h]
  · simp [simulateMsgUndelegate, hrv]
  · simp [simulateMsgBeginRedelegate, hrv]

/-- C5 (witness): the four generators evaluated in a concrete
validator-free state. -/
theorem c5_no_validator_noop_witness :
    simulateMsgEditValidator envNoVal [accA] rZero = .ret .noOp none ∧
    simulateMsgDelegate envNoVal [accA] rZero = .ret .noOp none ∧
    simulateMsgUndelegate envNoVal [accA] rZero = .ret .noOp none ∧
    simulateMsgBeginRedelegate envNoVal [accA] rZero = .ret .noOp none :=
  c5_no_validator_noop envNoVal [accA] rZero rfl

/-- C3 (counterexample): a state in which the selected validator's operator
has no entry in the account registry and yet `SimulateMsgEditValidator`
returns a NoOp skip with nil error — the commission-change validation (rate
updated within 24 hours) trips before the registry lookup is reached. -/
theorem c3_edit_registry_counterexample :
    simulateMsgEditValidator envU [] rZero = .ret .noOp none ∧
    findAccount [] vU.operatorAddress = none :=
  ⟨rfl, rfl⟩

/-- C3 (amended): when the drawn new commission rate passes validation, a
missing registry entry for the selected validator's operator yields an
Error; and every successful Edit-Validator resolved its operator in the
registry. -/
theorem c3_edit_registry_error :
    (∀ (env : Env) (accs : List Account) (r : RandInput) (val : Validator),
      randomValidator r.valIdx env = some val →
      validateNewRate val.commission
        (randomDecAmount r.decSeed1 val.commission.maxRate) env.blockTime = none →
      findAccount accs val.operatorAddress = none →
      simulateMsgEditValidator env accs r =
        .ret .noOp (some (.accountNotFound val.operatorAddress))) ∧
    (∀ (env : Env) (accs : List Account) (r : RandInput) (a : Addr)
      (ds : List String) (nr : ℤ),
      simulateMsgEditValidator env accs r =
        .ret (.opMsg (.editValidator a ds nr)) none →
      (findAccount accs a).isSome = true) := by
  constructor
  · intro env accs r val hv hval hfind
    have hne := randomValidator_some hv
    have hlen : ¬ env.validators.length = 0 := by
      cases henv : env.validators with
      | nil => exact absurd henv hne
      | cons a l => simp
    simp [simulateMsgEditValidator, hv, hval, hfind, hlen]
  · intro env accs r a ds nr h
    simp only [simulateMsgEditValidator] at h
    split at h
    · exact absurd h (by simp)
    · split at h
      · exact absurd h (by simp)
      · rename_i val hv
        split at h
        · exact absurd h (by simp)
        · split at h
          · exact absurd h (by simp)
          · rename_i simAccount hfind
            split at h
            · exact absurd h (by simp)
            · rename_i fees hfees
              have hm := finishTx_success h
              injection hm with h1 h2 h3
              subst h1
              simp [hfind]

/-- C3 (amended, witness): a concrete state where the validation passes and
the missing registry entry produces the Error; and a concrete successful
edit whose operator is present in the registry. -/
theorem c3_edit_registry_error_witness :
    simulateMsgEditValidator envOld [] rZero =
      .ret .noOp (some (.accountNotFound 1)) ∧
    (findAccount [accOp] 1).isSome = true :=
  ⟨c3_edit_registry_error.1 envOld [] rZero vOld rfl rfl rfl,
   c3_edit_registry_error.2 envOld [accOp] rZero 1 randDescription 0 rfl⟩

/-- C6 (counterexample): a state whose selected delegation's delegator (5)
has no matching account in the (empty) simulation-account list, yet
`SimulateMsgUndelegate` returns NoOp with nil error, because the
max-unbonding-entries guard trips before the registry scan is reached. -/
theorem c6_registry_counterexample :
    simulateMsgUndelegate envCap [] rZero = .ret .noOp none ∧
    List.find? (fun a => a.address == (5 : ℕ)) ([] : List Account) = none :=
  ⟨rfl, rfl⟩

/-- C6 (amended): in Undelegate and Begin-Redelegate, when the eligibility
guards before the signing-account resolution all pass and the selected
delegator has no matching account, the outcome is an Error; and every
successful outcome's delegator resolves to an account holding a private
key. -/
theorem c6_registry_error :
    (∀ (env : Env) (accs : List Account) (r : RandInput) (val : Validator)
      (del : Delegation) (amt : ℤ),
      randomValidator r.valIdx env = some val →
      env.delegationsOf val.operatorAddress ≠ [] →
      del = (env.delegationsOf val.operatorAddress).getD
        (r.delIdx % (env.delegationsOf val.operatorAddress).length) delegationZero →
      env.hasMaxUnbondingDelegationEntries del.delegatorAddress val.operatorAddress
        = false →
      0 < truncateInt (tokensFromShares val del.shares) →
      randPositiveInt r.amtSeed (truncateInt (tokensFromShares val del.shares))
        = .ok amt →
      accs.find? (fun a => a.address == del.delegatorAddress) = none →
      simulateMsgUndelegate env accs r =
        .ret .noOp (some (.accountNotFound del.delegatorAddress))) ∧
    (∀ (env : Env) (accs : List Account) (r : RandInput) (val dest : Validator)
      (del : Delegation) (amt sh : ℤ),
      randomValidator r.valIdx env = some val →
      env.delegationsOf val.operatorAddress ≠ [] →
      del = (env.delegationsOf val.operatorAddress).getD
        (r.delIdx % (env.delegationsOf val.operatorAddress).length) delegationZero →
      env.hasReceivingRedelegation del.delegatorAddress val.operatorAddress = false →
      randomValidator r.valIdx2 env = some dest →
      (val.operatorAddress == dest.operatorAddress || invalidExRate dest ||
        env.hasMaxRedelegationEntries del.delegatorAddress val.operatorAddress
          dest.operatorAddress) = false →
      0 < truncateInt (tokensFromShares val del.shares) →
      randPositiveInt r.amtSeed (truncateInt (tokensFromShares val del.shares))
        = .ok amt →
      sharesFromTokens val amt = .ok sh →
      ¬ truncateInt (tokensFromShares val sh) = 0 →
      accs.find? (fun a => a.address == del.delegatorAddress) = none →
      simulateMsgBeginRedelegate env accs r =
        .ret .noOp (some (.accountNotFound del.delegatorAddress))) ∧
    (∀ (env : Env) (accs : List Account) (r : RandInput) (d v : Addr) (c : Coin),
      simulateMsgUndelegate env accs r = .ret (.opMsg (.undelegate d v c)) none →
      ((accs.find? (fun a => a.address == d)).getD accountZero).privKey ≠ none) ∧
    (∀ (env : Env) (accs : List Account) (r : RandInput) (d s t : Addr) (c : Coin),
      simulateMsgBeginRedelegate env accs r =
        .ret (.opMsg (.beginRedelegate d s t c)) none →
      ((accs.find? (fun a => a.address == d)).getD accountZero).privKey ≠ none) := by
  refine ⟨?_, ?_, ?_, ?_⟩
  · intro env accs r val del amt hv hne hdel hcap hbond hok hfind
    have hemp := isEmpty_false hne
    have hnz : ¬ amt = 0 := by
      have := randPositiveInt_ok hok
      omega
    subst hdel
    simp only [List.getD_eq_getElem?_getD] at hcap hbond hok hfind
    simp [simulateMsgUndelegate, hv, hemp, hcap, hok, hfind, hnz, accountZero,
      hbond]
  · intro env accs r val dest del amt sh hv hne hdel hrecv hdest hguard hbond hok
      hsh hrt hfind
    have hemp := isEmpty_false hne
    have hnz : ¬ amt = 0 := by
      have := randPositiveInt_ok hok
      omega
    subst hdel
    simp only [List.getD_eq_getElem?_getD] at hrecv hguard hbond hok hfind
    simp [simulateMsgBeginRedelegate, hv, hemp, hrecv, hdest, hguard, hok, hnz,
      hsh, hrt, hfind, accountZero, hbond]
  · intro env accs r d v c h
    simp only [simulateMsgUndelegate] at h
    split at h
    · exact absurd h (by simp)
    · rename_i val hv
      split at h
      · exact absurd h (by simp)
      · split at h
        · exact absurd h (by simp)
        · split at h
          · exact absurd h (by simp)
          · split at h
            · exact absurd h (by simp)
            · rename_i amt hok
              split at h
              · exact absurd h (by simp)
              · split at h
                · exact absurd h (by simp)
                · rename_i hpk
                  split at h
                  · exact absurd h (by simp)
                  · rename_i fees hfees
                    have hm := finishTx_success h
                    injection hm with h1 h2 h3
                    subst h1
                    exact hpk
  · intro env accs r d s t c h
    simp only [simulateMsgBeginRedelegate] at h
    split at h
    · exact absurd h (by simp)
    · rename_i val hv
      split at h
      · exact absurd h (by simp)
      · split at h
        · exact absurd h (by simp)
        · split at h
          · exact absurd h (by simp)
          · rename_i destVal hdest
            split at h
            · exact absurd h (by simp)
            · split at h
              · exact absurd h (by simp)
              · split at h
                · exact absurd h (by simp)
                · rename_i amt hok
                  split at h
                  · exact absurd h (by simp)
                  · split at h
                    · exact absurd h (by simp)
                    · rename_i sh hsh
                      split at h
                      · exact absurd h (by simp)
                      · rename_i hrt
                        split at h
                        · exact absurd h (by simp)
                        · rename_i hpk
                          split at h
                          · exact absurd h (by simp)
                          · rename_i fees hfees
                            have hm := finishTx_success h
                            injection hm with h1 h2 h3 h4
                            subst h1
                            exact hpk

/-- C6 (amended, witness): concrete runs of both generators where the
resolution step is reached with no matching account and the outcome is the
registry-inconsistency Error, plus a concrete success whose delegator is
matched with a private key. -/
theorem c6_registry_error_witness :
    simulateMsgUndelegate envU [] rZero =
      .ret .noOp (some (.accountNotFound 5)) ∧
    simulateMsgBeginRedelegate envR [] rRedel =
      .ret .noOp (some (.accountNotFound 5)) ∧
    (([accA].find? (fun a => a.address == (5 : ℕ))).getD accountZero).privKey
      ≠ none :=
  ⟨c6_registry_error.1 envU [] rZero vU ⟨5, 1, 10 ^ 18⟩ 1
      rfl (by decide) rfl rfl (by decide) (by decide) rfl,
   c6_registry_error.2.1 envR [] rRedel v1 v2 ⟨5, 1, 500000 * 10 ^ 18⟩ 1 (10 ^ 18)
      rfl (by decide) rfl rfl rfl rfl (by decide) (by decide) (by decide)
      (by decide) rfl,
   c6_registry_error.2.2.1 envU [accA] rZero 5 1 ⟨"stake", 1⟩ rfl⟩

/-- C7: every successful Create-Validator or Delegate outcome carries a
principal (self-delegation or bond) amount that is strictly positive and at
most the acting account's balance in the bonding denomination read from the
state at call time. -/
theorem c7_principal_balance_bound :
    (∀ (env : Env) (accs : List Account) (r : RandInput) (v : Addr) (pk : ℕ)
      (sd : Coin) (ds : List String) (cm : CommissionRates) (msd : ℤ),
      simulateMsgCreateValidator env accs r =
        .ret (.opMsg (.createValidator v pk sd ds cm msd)) none →
      0 < sd.amount ∧ sd.amount ≤ amountOf (env.getAccount v).coins env.bondDenom ∧
      sd.denom = env.bondDenom) ∧
    (∀ (env : Env) (accs : List Account) (r : RandInput) (d va : Addr) (c : Coin),
      simulateMsgDelegate env accs r = .ret (.opMsg (.delegate d va c)) none →
      0 < c.amount ∧ c.amount ≤ amountOf (env.getAccount d).coins env.bondDenom ∧
      c.denom = env.bondDenom) := by
  constructor
  · intro env accs r v pk sd ds cm msd h
    simp only [simulateMsgCreateValidator] at h
    split at h
    · exact absurd h (by simp)
    · split at h
      · exact absurd h (by simp)
      · split at h
        · exact absurd h (by simp)
        · split at h
          · exact absurd h (by simp)
          · rename_i amt hok
            split at h
            · exact absurd h (by simp)
            · rename_i fees hfees
              have hm := finishTx_success h
              injection hm with h1 h2 h3 h4 h5 h6
              subst h1
              subst h3
              obtain ⟨ha1, ha2⟩ := randPositiveInt_ok hok
              have he1 : (Coin.mk env.bondDenom amt).amount = amt := rfl
              have he2 : (Coin.mk env.bondDenom amt).denom = env.bondDenom := rfl
              rw [he1, he2]
              exact ⟨by omega, ha2, rfl⟩
  · intro env accs r d va c h
    simp only [simulateMsgDelegate] at h
    split at h
    · exact absurd h (by simp)
    · split at h
      · exact absurd h (by simp)
      · split at h
        · exact absurd h (by simp)
        · rename_i val hv
          split at h
          · exact absurd h (by simp)
          · split at h
            · exact absurd h (by simp)
            · split at h
              · exact absurd h (by simp)
              · rename_i amt hok
                split at h
                · exact absurd h (by simp)
                · rename_i fees hfees
                  have hm := finishTx_success h
                  injection hm with h1 h2 h3
                  subst h1
                  subst h3
                  obtain ⟨ha1, ha2⟩ := randPositiveInt_ok hok
                  have he1 : (Coin.mk env.bondDenom amt).amount = amt := rfl
                  have he2 : (Coin.mk env.bondDenom amt).denom = env.bondDenom := rfl
                  rw [he1, he2]
                  exact ⟨by omega, ha2, rfl⟩

/-- C7 (witness): concrete successful create-validator and delegate runs,
with principal 3 against a balance of 5. -/
theorem c7_principal_balance_bound_witness :
    ((0 : ℤ) < 3 ∧ (3 : ℤ) ≤ 5 ∧ "stake" = "stake") ∧
    ((0 : ℤ) < 3 ∧ (3 : ℤ) ≤ 5 ∧ "stake" = "stake") :=
  ⟨c7_principal_balance_bound.1 envNoVal [accA] rAmt2 5 50 ⟨"stake", 3⟩
      randDescription (drawCommission rAmt2) 1 rfl,
   c7_principal_balance_bound.2 envR [accA] rAmt2 5 1 ⟨"stake", 3⟩ rfl⟩

/-- C8: a successful Begin-Redelegate never has its source validator address
equal to its destination validator address. -/
theorem c8_redelegate_distinct (env : Env) (accs : List Account) (r : RandInput)
    (d s t : Addr) (c : Coin)
    (h : simulateMsgBeginRedelegate env accs r =
      .ret (.opMsg (.beginRedelegate d s t c)) none) : s ≠ t := by
  simp only [simulateMsgBeginRedelegate] at h
  split at h
  · exact absurd h (by simp)
  · rename_i val hv
    split at h
    · exact absurd h (by simp)
    · split at h
      · exact absurd h (by simp)
      · split at h
        · exact absurd h (by simp)
        · rename_i destVal hdest
          split at h
          · exact absurd h (by simp)
          · rename_i hguard
            split at h
            · exact absurd h (by simp)
            · split at h
              · exact absurd h (by simp)
              · rename_i amt hok
                split at h
                · exact absurd h (by simp)
                · split at h
                  · exact absurd h (by simp)
                  · rename_i sh hsh
                    split at h
                    · exact absurd h (by simp)
                    · split at h
                      · exact absurd h (by simp)
                      · split at h
                        · exact absurd h (by simp)
                        · rename_i fees hfees
                          have hm := finishTx_success h
                          injection hm with h1 h2 h3 h4
                          subst h2
                          subst h3
                          simp only [Bool.or_eq_true, beq_iff_eq] at hguard
                          intro hst
                          exact hguard (Or.inl (Or.inl hst))

/-- C8 (witness): the concrete success in `envR` goes from validator 1 to
validator 2. -/
theorem c8_redelegate_distinct_witness : (1 : Addr) ≠ 2 :=
  c8_redelegate_distinct envR [accA] rRedel 5 1 2 ⟨"stake", 1⟩ rfl

/-- C9: a successful Undelegate amount is strictly positive and at most the
selected delegation's shares converted to tokens at the validator's exchange
rate, truncated toward zero; and when that total is not positive (no amount
in the range can be drawn) the outcome is NoOp with nil error. -/
theorem c9_undelegate_amount_bound :
    (∀ (env : Env) (accs : List Account) (r : RandInput) (val : Validator)
      (d v : Addr) (c : Coin),
      randomValidator r.valIdx env = some val →
      simulateMsgUndelegate env accs r = .ret (.opMsg (.undelegate d v c)) none →
      0 < c.amount ∧
      c.amount ≤ truncateInt (tokensFromShares val
        ((env.delegationsOf val.operatorAddress).getD
          (r.delIdx % (env.delegationsOf val.operatorAddress).length)
          delegationZero).shares)) ∧
    (∀ (env : Env) (accs : List Account) (r : RandInput) (val : Validator),
      randomValidator r.valIdx env = some val →
      env.delegationsOf val.operatorAddress ≠ [] →
      truncateInt (tokensFromShares val
        ((env.delegationsOf val.operatorAddress).getD
          (r.delIdx % (env.delegationsOf val.operatorAddress).length)
          delegationZero).shares) ≤ 0 →
      simulateMsgUndelegate env accs r = .ret .noOp none) := by
  constructor
  · intro env accs r val d v c hv h
    simp only [simulateMsgUndelegate, hv] at h
    split at h
    · exact absurd h (by simp)
    · split at h
      · exact absurd h (by simp)
      · split at h
        · exact absurd h (by simp)
        · split at h
          · exact absurd h (by simp)
          · rename_i amt hok
            split at h
            · exact absurd h (by simp)
            · split at h
              · exact absurd h (by simp)
              · split at h
                · exact absurd h (by simp)
                · rename_i fees hfees
                  have hm := finishTx_success h
                  injection hm with h1 h2 h3
                  subst h3
                  obtain ⟨ha1, ha2⟩ := randPositiveInt_ok hok
                  have he1 : (Coin.mk env.bondDenom amt).amount = amt := rfl
                  rw [he1]
                  exact ⟨by omega, ha2⟩
  · intro env accs r val hv hne htb
    have hemp := isEmpty_false hne
    simp only [List.getD_eq_getElem?_getD] at htb
    simp [simulateMsgUndelegate, hv, hemp, htb]

/-- C9 (witness): the concrete success in `envU` draws 1 of the 10^20
available tokens; the zero-bond state yields NoOp. -/
theorem c9_undelegate_amount_bound_witness :
    ((0 : ℤ) < 1 ∧ (1 : ℤ) ≤ 10 ^ 20) ∧
    simulateMsgUndelegate envZeroBond [accA] rZero = .ret .noOp none :=
  ⟨c9_undelegate_amount_bound.1 envU [accA] rZero vU 5 1 ⟨"stake", 1⟩ rfl rfl,
   c9_undelegate_amount_bound.2 envZeroBond [accA] rZero vZeroTok rfl
     (by decide) (by decide)⟩

/-- C10: in Create-Validator and Delegate, when subtracting the reserved
principal from the spendable coins yields a negative component, the
generator neither skips nor errors at that point: it proceeds to build and
deliver the transaction with nil (empty) fees. -/
theorem c10_negative_spendable_nil_fees :
    (∀ (env : Env) (accs : List Account) (r : RandInput) (simAcc : Account)
      (amt : ℤ),
      accs ≠ [] →
      simAcc = accs.getD (r.accIdx % accs.length) accountZero →
      (env.validators.find? (fun v => v.operatorAddress == simAcc.address)).isSome
        = false →
      0 < amountOf (env.getAccount simAcc.address).coins env.bondDenom →
      randPositiveInt r.amtSeed
        (amountOf (env.getAccount simAcc.address).coins env.bondDenom) = .ok amt →
      (safeSub (env.getAccount simAcc.address).spendable
        [⟨env.bondDenom, amt⟩]).2 = true →
      simulateMsgCreateValidator env accs r =
        finishTx env (.createValidator simAcc.address simAcc.pubKey
          ⟨env.bondDenom, amt⟩ randDescription (drawCommission r) 1) []
          (env.getAccount simAcc.address) simAcc.privKey) ∧
    (∀ (env : Env) (accs : List Account) (r : RandInput) (simAcc : Account)
      (val : Validator) (amt : ℤ),
      env.validators.length ≠ 0 →
      accs ≠ [] →
      simAcc = accs.getD (r.accIdx % accs.length) accountZero →
      randomValidator r.valIdx env = some val →
      invalidExRate val = false →
      0 < amountOf (env.getAccount simAcc.address).coins env.bondDenom →
      randPositiveInt r.amtSeed
        (amountOf (env.getAccount simAcc.address).coins env.bondDenom) = .ok amt →
      (safeSub (env.getAccount simAcc.address).spendable
        [⟨env.bondDenom, amt⟩]).2 = true →
      simulateMsgDelegate env accs r =
        finishTx env (.delegate simAcc.address val.operatorAddress
          ⟨env.bondDenom, amt⟩) [] (env.getAccount simAcc.address)
          simAcc.privKey) := by
  constructor
  · intro env accs r simAcc amt hacc hsa hnov hpos hok hneg
    subst hsa
    have hemp := isEmpty_false hacc
    simp only [List.getD_eq_getElem?_getD] at hnov hpos hok hneg ⊢
    simp [simulateMsgCreateValidator, hemp, hnov, hok, hneg, hpos]
  · intro env accs r simAcc val amt hlen hacc hsa hv hinv hpos hok hneg
    subst hsa
    have hemp := isEmpty_false hacc
    simp only [List.getD_eq_getElem?_getD] at hpos hok hneg ⊢
    simp [simulateMsgDelegate, hemp, hlen, hv, hinv, hok, hneg, hpos]

/-- C10 (witness): concrete runs with balance 5, principal 3, and an empty
spendable set, delivering with empty fees. -/
theorem c10_negative_spendable_nil_fees_witness :
    simulateMsgCreateValidator envPoor [accA] rAmt2 =
      finishTx envPoor (.createValidator 5 50 ⟨"stake", 3⟩ randDescription
        (drawCommission rAmt2) 1) [] (envPoor.getAccount 5) (some 77) ∧
    simulateMsgDelegate envPoorV [accA] rAmt2 =
      finishTx envPoorV (.delegate 5 1 ⟨"stake", 3⟩) [] (envPoorV.getAccount 5)
        (some 77) :=
  ⟨c10_negative_spendable_nil_fees.1 envPoor [accA] rAmt2 accA 3
      (by decide) rfl rfl (by decide) (by decide) (by decide),
   c10_negative_spendable_nil_fees.2 envPoorV [accA] rAmt2 accA v1 3
      (by decide) (by decide) rfl rfl rfl (by decide) (by decide) (by decide)⟩

end StakingSim
